import Mathlib

/-!
Shallow embedding of the solowPy tutorial notebooks: the Solow growth model
calibration and estimation routines from the notebook
"6 Calibration and estimation.ipynb" and the production-function definitions
from "1 Getting started.ipynb".

Parameter dictionaries are modelled as association lists from parameter names
to real values; the first binding for a key wins on lookup, matching Python
dictionary semantics for lookups after updates.  Missing values (NaN cells
dropped by dropna) are modelled with Option.  Library calls that do not appear
in the repository sources (pandas OLS, scipy optimize, the solowpy model
methods) are modelled from the spec and marked as such in their doc comments.
-/

namespace SolowPy

/-- Parameter dictionary: association list from names to values, first
binding wins on lookup (Python dict semantics for reads). -/
abbrev Dict := List (String × ℝ)

/-- Lookup of a key, Python style read access returning an optional value. -/
def dictLookup (d : Dict) (k : String) : Option ℝ :=
  List.lookup k d

/-- Python dictionary item assignment: d[k] = v.  Shadows any earlier
binding of k for lookups. -/
def dictInsert (d : Dict) (k : String) (v : ℝ) : Dict :=
  (k, v) :: d

/-- Python dict.update(nd): the bindings of nd shadow those of d. -/
def dictUpdate (d nd : Dict) : Dict :=
  nd ++ d

/-- Python dictionary read d[k] which raises KeyError when k is missing,
modelled as Except. -/
def dictGet (d : Dict) (k : String) : Except String ℝ :=
  match List.lookup k d with
  | some v => .ok v
  | none => .error ("KeyError: " ++ k)

/-- Observation in the Penn World Tables panel for one country and year.
Each of the six series required by the calibration can be missing (NaN). -/
structure Obs where
  year : Int
  rgdpna : Option ℝ
  rkna : Option ℝ
  emp : Option ℝ
  labsh : Option ℝ
  csh_i : Option ℝ
  delta_k : Option ℝ

/-- Observation after tmp_data[required_vars].dropna() in match_moments:
all six required series are present. -/
structure Row where
  year : Int
  rgdpna : ℝ
  rkna : ℝ
  emp : ℝ
  labsh : ℝ
  csh_i : ℝ
  delta_k : ℝ

/-- Observation after dropna in maximize_likelihood, whose required_vars
list has only the four series rgdpna, rkna, emp, labsh. -/
structure Row4 where
  year : Int
  rgdpna : ℝ
  rkna : ℝ
  emp : ℝ
  labsh : ℝ

/-- tmp_data[required_vars].dropna() of match_moments: keep the rows where
all six required series are present. -/
def dropRowsWithMissing (data : List Obs) : List Row :=
  data.filterMap fun o =>
    match o.rgdpna, o.rkna, o.emp, o.labsh, o.csh_i, o.delta_k with
    | some a, some b, some c, some d, some e, some f =>
        some ⟨o.year, a, b, c, d, e, f⟩
    | _, _, _, _, _, _ => none

/-- tmp_data[required_vars].dropna() of maximize_likelihood: keep the rows
where the four required series are present. -/
def dropRowsWithMissing4 (data : List Obs) : List Row4 :=
  data.filterMap fun o =>
    match o.rgdpna, o.rkna, o.emp, o.labsh with
    | some a, some b, some c, some d => some ⟨o.year, a, b, c, d⟩
    | _, _, _, _ => none

/-- Window selection of match_moments: after dropna, when bounds is None the
start and end are taken from the first and last index entry, and the data is
sliced with tmp_data.loc[start:end].  The pandas label slice on the sorted
year index is modelled as the inclusive year-range filter. -/
def windowOf (data : List Obs) (bounds : Option (Int × Int)) : List Row :=
  match dropRowsWithMissing data with
  | [] => []
  | first :: rest =>
      let tmp := first :: rest
      let se := bounds.getD (first.year, (tmp.getLast (List.cons_ne_nil _ _)).year)
      tmp.filter fun r => decide (se.1 ≤ r.year) && decide (r.year ≤ se.2)

/-- Window selection of maximize_likelihood, same slicing over the rows kept
by its four-series dropna. -/
def windowOf4 (data : List Obs) (bounds : Option (Int × Int)) : List Row4 :=
  match dropRowsWithMissing4 data with
  | [] => []
  | first :: rest =>
      let tmp := first :: rest
      let se := bounds.getD (first.year, (tmp.getLast (List.cons_ne_nil _ _)).year)
      tmp.filter fun r => decide (se.1 ≤ r.year) && decide (r.year ≤ se.2)

/-- Series.mean() of pandas: sum divided by length. -/
noncomputable def mean (l : List ℝ) : ℝ := l.sum / l.length

/-- Modelled from the spec: slope coefficient of pd.ols, the ordinary least
squares regression of y on a constant and the linear time trend
linspace(0, N-1, N), via the closed-form normal-equation solution.  pd.ols is
pandas library code not present in the repository sources. -/
noncomputable def olsSlope (y : List ℝ) : ℝ :=
  let N : ℕ := y.length
  let Sx : ℝ := ∑ i in Finset.range N, (i : ℝ)
  let Sxx : ℝ := ∑ i in Finset.range N, (i : ℝ) ^ 2
  let Sy : ℝ := ∑ i in Finset.range N, y.getD i 0
  let Sxy : ℝ := ∑ i in Finset.range N, (i : ℝ) * y.getD i 0
  ((N : ℝ) * Sxy - Sx * Sy) / ((N : ℝ) * Sxx - Sx ^ 2)

/-- Modelled from the spec: intercept coefficient of the same pd.ols
regression. -/
noncomputable def olsIntercept (y : List ℝ) : ℝ :=
  let N : ℕ := y.length
  let Sx : ℝ := ∑ i in Finset.range N, (i : ℝ)
  let Sy : ℝ := ∑ i in Finset.range N, y.getD i 0
  (Sy - olsSlope y * Sx) / (N : ℝ)

/-- Sum of squared errors of the regression of the series y on a constant b0
and the linear time trend with coefficient b1; the objective that ordinary
least squares minimizes. -/
noncomputable def sse (y : List ℝ) (b0 b1 : ℝ) : ℝ :=
  ∑ i in Finset.range y.length, (y.getD i 0 - (b0 + b1 * (i : ℝ))) ^ 2

/-- Solow model object: its stored parameter dictionary together with the
production-variant methods used by the calibration code.  The methods
evaluate_solow_residual and evaluate_output_elasticity are solowpy library
code not present in the repository sources, so they are kept abstract as
fields reading the current parameters; per-observation application models the
elementwise pandas Series arithmetic. -/
structure Model where
  params : Dict
  solowResidual : Dict → ℝ → ℝ → ℝ → ℝ
  outputElasticity : Dict → ℝ → ℝ

/-- Body of match_moments on the sliced observation window: the moment
matching estimates of the notebook, returned as the parameter dictionary
literal of the source. -/
noncomputable def matchMomentsOf (m : Model) (window : List Row) : Dict :=
  let laborShare := window.map Row.labsh
  let savingsRate := window.map Row.csh_i
  let depreciationRate := window.map Row.delta_k
  let labor := window.map Row.emp
  -- capital_share = 1 - labor_share; alpha = capital_share.mean()
  let capitalShare := laborShare.map fun v => 1 - v
  let alpha := mean capitalShare
  -- solow_residual = model.evaluate_solow_residual(output, capital, labor)
  let technology := window.map fun r => m.solowResidual m.params r.rgdpna r.rkna r.emp
  -- s = savings_rate.mean()
  let s := mean savingsRate
  -- n, L0 from the regression of log employed persons on the time trend
  let n := olsSlope (labor.map Real.log)
  let L0 := Real.exp (olsIntercept (labor.map Real.log))
  -- g, A0 from the regression of log TFP on the time trend
  let g := olsSlope (technology.map Real.log)
  let A0 := Real.exp (olsIntercept (technology.map Real.log))
  -- delta = depreciation_rate.mean()
  let delta := mean depreciationRate
  [("s", s), ("alpha", alpha), ("delta", delta), ("n", n), ("L0", L0),
   ("g", g), ("A0", A0)]

/-- match_moments of the calibration notebook.  The assert on the dropna
result (before the bounds slice) is the AssertionError "Insufficient data to
estimate model parameters", modelled as the error case. -/
noncomputable def matchMoments (m : Model) (data : List Obs)
    (bounds : Option (Int × Int)) : Except String Dict :=
  match dropRowsWithMissing data with
  | [] => .error "Insufficient data to estimate model parameters"
  | _ :: _ => .ok (matchMomentsOf m (windowOf data bounds))

/-- Fixed key order of the seven estimation parameters used by
_array_to_params and _params_to_array. -/
def paramKeys : List String :=
  ["g", "n", "s", "alpha", "delta", "sigma", "sigma_eps"]

/-- _array_to_params of the notebook: dict(zip(keys, array)). -/
def arrayToParams (array : List ℝ) : Dict :=
  List.zip paramKeys array

/-- _params_to_array of the notebook: reads the seven estimation parameters
from the dictionary (raising KeyError when one is missing) and returns them
in the fixed order. -/
def paramsToArray (params : Dict) : Except String (List ℝ) := do
  let g ← dictGet params "g"
  let n ← dictGet params "n"
  let s ← dictGet params "s"
  let alpha ← dictGet params "alpha"
  let delta ← dictGet params "delta"
  let sigma ← dictGet params "sigma"
  let sigma_eps ← dictGet params "sigma_eps"
  pure [g, n, s, alpha, delta, sigma, sigma_eps]

/-- _cobb_douglas_initial_guess of the notebook: the match_moments estimates
with the supplied initial guesses for sigma and sigma_eps appended, packed
into the seven-entry array. -/
noncomputable def cobbDouglasInitialGuess (m : Model) (data : List Obs)
    (bounds : Option (Int × Int)) (sigma0 sigma_eps0 : ℝ) :
    Except String (List ℝ) := do
  let tmpParams ← matchMoments m data bounds
  let tmpParams := dictInsert tmpParams "sigma" sigma0
  let tmpParams := dictInsert tmpParams "sigma_eps" sigma_eps0
  paramsToArray tmpParams

/-- Modelled from the spec: stats.norm.pdf, the Gaussian density with the
given mean and scale; scipy library code not present in the repository
sources. -/
noncomputable def normPdf (x mu sigma : ℝ) : ℝ :=
  (1 / (sigma * Real.sqrt (2 * Real.pi))) *
    Real.exp (-((x - mu) ^ 2 / (2 * sigma ^ 2)))

/-- _likelihood_function of the notebook.  The Python function assigns
model.params = tmp_params before evaluating, mutating the model object; the
mutated model is returned as the second component.  The read of
model.params[sigma_eps] cannot raise here because the update always inserts
the seven estimation keys, so it is modelled with a default. -/
noncomputable def likelihoodFunction (paramsArray : List ℝ) (m : Model)
    (output capital labor laborShare : List ℝ) : ℝ × Model :=
  let newParams := arrayToParams paramsArray
  let tmpParams := dictUpdate m.params newParams
  let m2 : Model := { m with params := tmpParams }
  let technology := (List.zip output (List.zip capital labor)).map
    fun p => m2.solowResidual m2.params p.1 p.2.1 p.2.2
  let k := (List.zip capital (List.zip technology labor)).map
    fun p => p.1 / (p.2.1 * p.2.2)
  let predictedLaborShare := k.map fun kv => 1 - m2.outputElasticity m2.params kv
  let residual := (List.zip laborShare predictedLaborShare).map fun p => p.1 - p.2
  let sigmaEps := (dictLookup m2.params "sigma_eps").getD 0
  let totalLogLikelihood :=
    (residual.map fun r => Real.log (normPdf r 0 sigmaEps)).sum
  (-totalLogLikelihood, m2)

/-- Diagnostic result object of scipy.optimize.minimize: convergence flag and
the argmin array.  The optimizer itself is scipy library code not present in
the repository sources, so maximize_likelihood is parametrized over it. -/
structure OptResult where
  success : Bool
  x : List ℝ

/-- Return shape of maximize_likelihood: on optimizer failure the bare
diagnostic result, on success the pair of the result and the estimated
parameter dictionary. -/
inductive MLOutcome
  | failed (result : OptResult)
  | estimated (result : OptResult) (params : Dict)

/-- maximize_likelihood of the notebook.  The optimizer argument stands for
scipy.optimize.minimize applied to _likelihood_function with the given method
and box bounds; it receives the initial-guess array and returns the
diagnostic result.  It is invoked exactly once.  On success A0, L0, K0 are
taken positionally from the first observations of the technology, labor and
capital series (Python raises there when the window is empty; the theorems
assume a nonempty window). -/
noncomputable def maximizeLikelihood (m : Model) (data : List Obs)
    (bounds : Option (Int × Int)) (optimizer : List ℝ → OptResult)
    (sigma0 sigma_eps0 : ℝ) : Except String MLOutcome :=
  match dropRowsWithMissing4 data with
  | [] => .error "Insufficient data to estimate model parameters"
  | _ :: _ =>
      let window := windowOf4 data bounds
      let technology := window.map fun r =>
        m.solowResidual m.params r.rgdpna r.rkna r.emp
      match cobbDouglasInitialGuess m data bounds sigma0 sigma_eps0 with
      | .error e => .error e
      | .ok initialGuess =>
      let result := optimizer initialGuess
      if result.success then
        let tmpParams := arrayToParams result.x
        let tmpParams := dictInsert tmpParams "A0" (technology.getD 0 0)
        let tmpParams := dictInsert tmpParams "L0" ((window.map Row4.emp).getD 0 0)
        let tmpParams := dictInsert tmpParams "K0" ((window.map Row4.rkna).getD 0 0)
        .ok (MLOutcome.estimated result tmpParams)
      else
        .ok (MLOutcome.failed result)

/-- CES production function of the getting-started notebook:
ces_output = (alpha * K**rho + (1 - alpha) * (A * L)**rho)**(1 / rho) with
rho = (sigma - 1) / sigma. -/
noncomputable def cesOutput (alpha sigma K A L : ℝ) : ℝ :=
  let rho := (sigma - 1) / sigma
  (alpha * K ^ rho + (1 - alpha) * (A * L) ^ rho) ^ (1 / rho)

/-- Cobb-Douglas production function of the getting-started notebook:
cobb_douglas_output = K**alpha * (A * L)**(1 - alpha). -/
noncomputable def cobbDouglasOutput (alpha K A L : ℝ) : ℝ :=
  K ^ alpha * (A * L) ^ (1 - alpha)

/-- Modelled from the spec: the CES evaluator recovers the Cobb-Douglas
limit at sigma = 1 through a limiting-case branch for the removable
singularity; the branching evaluator is solowpy library code not present in
the repository sources, whose off-branch case is the ces_output expression of
the notebook. -/
noncomputable def cesOutputEvaluator (alpha sigma K A L : ℝ) : ℝ :=
  if sigma = 1 then cobbDouglasOutput alpha K A L else cesOutput alpha sigma K A L

/-- Modelled from the spec: solow.CobbDouglasModel.analytic_solution, the
closed-form solution displayed in the solving-the-model notebook,
k(t) = [(s/(n+g+delta))(1 - exp(-(n+g+delta)(1-alpha)t))
        + k0^(1-alpha) exp(-(n+g+delta)(1-alpha)t)]^(1/(1-alpha));
the implementing method is solowpy library code not present in the
repository sources. -/
noncomputable def analyticSolution (g n s alpha delta k0 t : ℝ) : ℝ :=
  ((s / (n + g + delta)) * (1 - Real.exp (-(n + g + delta) * (1 - alpha) * t)) +
      k0 ^ (1 - alpha) * Real.exp (-(n + g + delta) * (1 - alpha) * t)) ^
    (1 / (1 - alpha))

/-- Steady state of the Solow model with Cobb-Douglas production,
k* = (s/(n+g+delta))^(1/(1-alpha)). -/
noncomputable def steadyState (g n s alpha delta : ℝ) : ℝ :=
  (s / (n + g + delta)) ^ (1 / (1 - alpha))

/-- Modelled from the spec: Model.k_dot, the equation of motion
sf(k) - (g+n+delta)k of the getting-started notebook with Cobb-Douglas
intensive output f(k) = k^alpha; the implementing method is solowpy library
code not present in the repository sources. -/
noncomputable def kDot (g n s alpha delta k : ℝ) : ℝ :=
  s * k ^ alpha - (g + n + delta) * k

/-- Placeholder production-variant methods for concrete instances used by
the witnesses: the theorems about the calibration pipeline hold for every
model object, so the witnesses may pick trivial methods. -/
def trivialModel : Model :=
  { params := []
    solowResidual := fun _ y _ _ => y
    outputElasticity := fun _ _ => 0 }

/-- Complete synthetic observation used by the witnesses. -/
def obsOf (year : Int) (labsh : ℝ) : Obs :=
  { year := year, rgdpna := some 1, rkna := some 1, emp := some 1,
    labsh := some labsh, csh_i := some 1, delta_k := some 1 }

/-- Literal three-year synthetic series with labsh = 0.6 throughout. -/
def dataLabsh06 : List Obs :=
  [obsOf 2000 0.6, obsOf 2001 0.6, obsOf 2002 0.6]

/-- Single complete observation in year 2000, used to exhibit an empty
bounds-filtered window with a nonempty dropna result. -/
def dataOneYear : List Obs :=
  [obsOf 2000 0.6]

/-- Model whose stored parameter dictionary has sigma_eps = 1, used to
exhibit the parameter mutation performed by the likelihood objective. -/
def modelSigmaEps1 : Model :=
  { params := [("sigma_eps", 1)]
    solowResidual := fun _ y _ _ => y
    outputElasticity := fun _ _ => 0 }

/-- Seven-entry parameter array whose sigma_eps entry is 2, used to exhibit
the parameter mutation performed by the likelihood objective. -/
def arraySigmaEps2 : List ℝ :=
  [0, 0, 0, 0, 0, 0, 2]

/-- Concrete seven-entry array for the round-trip witness. -/
def listSeven : List ℝ := [1, 2, 3, 4, 5, 6, 7]

/-- Concrete parameter dictionary containing the seven estimation keys, for
the round-trip witness. -/
def dictSeven : Dict :=
  [("g", 1), ("n", 2), ("s", 3), ("alpha", 4), ("delta", 5), ("sigma", 6),
   ("sigma_eps", 7)]

/-- Optimizer stub reporting convergence, standing in for a successful
scipy.optimize.minimize call in the witnesses. -/
def optSucceeds : List ℝ → OptResult :=
  fun _ => { success := true, x := [1, 2, 3, 4, 5, 6, 7] }

/-- Optimizer stub reporting non-convergence, standing in for a failed
scipy.optimize.minimize call in the witnesses. -/
def optFails : List ℝ → OptResult :=
  fun _ => { success := false, x := [] }

/-! Helper lemmas about dictionaries and list statistics. -/

/-- Lookup distributes over append, preferring the first list. -/
theorem lookup_append (k : String) (l1 l2 : Dict) :
    List.lookup k (l1 ++ l2) = ((List.lookup k l1).or (List.lookup k l2)) := by
  induction l1 with
  | nil => simp
  | cons p l ih =>
      rcases p with ⟨k1, v1⟩
      cases hb : (k == k1) <;> simp [List.lookup, hb, ih]

/-- Lookup in a zip misses every key outside the key list. -/
theorem lookup_zip_of_not_mem (k : String) (ks : List String) (vs : List ℝ)
    (h : k ∉ ks) : List.lookup k (List.zip ks vs) = none := by
  induction ks generalizing vs with
  | nil => simp
  | cons k1 ks ih =>
      cases vs with
      | nil => simp
      | cons v1 vs =>
          have hne : k ≠ k1 := fun he => h (he ▸ List.mem_cons_self k1 ks)
          have hnm : k ∉ ks := fun hm => h (List.mem_cons_of_mem _ hm)
          have hb : (k == k1) = false := beq_eq_false_iff_ne.mpr hne
          simpa [List.lookup, hb, List.zip] using ih vs hnm

/-- Sum of the pointwise complement series 1 - v. -/
theorem sum_map_one_sub (l : List ℝ) :
    (l.map fun v => 1 - v).sum = l.length - l.sum := by
  induction l with
  | nil => simp
  | cons a l ih => simp [ih]; ring

/-- Mean of the pointwise complement series: mean (1 - v) = 1 - mean v on a
nonempty series. -/
theorem mean_map_one_sub (l : List ℝ) (h : l ≠ []) :
    mean (l.map fun v => 1 - v) = 1 - mean l := by
  have h0 : (l.length : ℝ) ≠ 0 := by
    simpa using List.length_pos.mpr h |>.ne'
  simp only [mean, sum_map_one_sub, List.length_map]
  field_simp

/-- C10: the conversions between seven-entry parameter arrays and parameter
dictionaries are mutually inverse: converting a seven-element array to a
parameter dictionary and back returns the same array, and converting a
dictionary containing all seven estimation keys to an array and back agrees
with the original dictionary on those keys. -/
theorem paramsToArray_arrayToParams_inverse :
    (∀ a : List ℝ, a.length = 7 →
      paramsToArray (arrayToParams a) = .ok a) ∧
    (∀ d : Dict, (∀ k ∈ paramKeys, (dictLookup d k).isSome = true) →
      ∃ arr, paramsToArray d = .ok arr ∧
        ∀ k ∈ paramKeys, dictLookup (arrayToParams arr) k = dictLookup d k) := by
  constructor
  · intro a h
    rcases a with _ | ⟨x0, _ | ⟨x1, _ | ⟨x2, _ | ⟨x3, _ | ⟨x4, _ | ⟨x5, _ | ⟨x6, rest⟩⟩⟩⟩⟩⟩⟩ <;>
      simp only [List.length_cons, List.length_nil] at h <;> try omega
    have hr : rest = [] := by
      have : rest.length = 0 := by omega
      exact List.length_eq_zero.mp this
    subst hr
    rfl
  · intro d h
    have hg := Option.isSome_iff_exists.mp (h "g" (by simp [paramKeys]))
    have hn := Option.isSome_iff_exists.mp (h "n" (by simp [paramKeys]))
    have hs := Option.isSome_iff_exists.mp (h "s" (by simp [paramKeys]))
    have ha := Option.isSome_iff_exists.mp (h "alpha" (by simp [paramKeys]))
    have hd := Option.isSome_iff_exists.mp (h "delta" (by simp [paramKeys]))
    have hsi := Option.isSome_iff_exists.mp (h "sigma" (by simp [paramKeys]))
    have hse := Option.isSome_iff_exists.mp (h "sigma_eps" (by simp [paramKeys]))
    obtain ⟨vg, hg⟩ := hg
    obtain ⟨vn, hn⟩ := hn
    obtain ⟨vs, hs⟩ := hs
    obtain ⟨va, ha⟩ := ha
    obtain ⟨vd, hd⟩ := hd
    obtain ⟨vsi, hsi⟩ := hsi
    obtain ⟨vse, hse⟩ := hse
    simp only [dictLookup] at hg hn hs ha hd hsi hse
    refine ⟨[vg, vn, vs, va, vd, vsi, vse], ?_, ?_⟩
    · simp only [paramsToArray, dictGet, hg, hn, hs, ha, hd, hsi, hse]
      rfl
    · intro k hk
      simp only [paramKeys, List.mem_cons, List.not_mem_nil, or_false] at hk
      rcases hk with rfl | rfl | rfl | rfl | rfl | rfl | rfl <;>
        simp [arrayToParams, paramKeys, dictLookup, List.lookup, hg, hn, hs, ha, hd, hsi, hse]

/-- Witness for C10 at a concrete seven-entry array and a concrete
dictionary holding all seven estimation keys. -/
theorem paramsToArray_arrayToParams_inverse_witness :
    (paramsToArray (arrayToParams listSeven) = .ok listSeven) ∧
    (∃ arr, paramsToArray dictSeven = .ok arr ∧
      ∀ k ∈ paramKeys, dictLookup (arrayToParams arr) k = dictLookup dictSeven k) := by
  refine ⟨?_, ?_⟩
  · exact paramsToArray_arrayToParams_inverse.1 listSeven (by simp [listSeven])
  · exact paramsToArray_arrayToParams_inverse.2 dictSeven (by
      intro k hk
      simp only [paramKeys, List.mem_cons, List.not_mem_nil, or_false] at hk
      rcases hk with rfl | rfl | rfl | rfl | rfl | rfl | rfl <;> rfl)

/-- C1: for every observed labor-share series over a nonempty calibration
window, the moment-matching estimate of alpha returned by match_moments
equals 1 minus the time-average of the labor share. -/
theorem matchMoments_alpha (m : Model) (data : List Obs)
    (bounds : Option (Int × Int)) (hw : windowOf data bounds ≠ []) :
    ∃ d, matchMoments m data bounds = .ok d ∧
      dictLookup d "alpha" =
        some (1 - mean ((windowOf data bounds).map Row.labsh)) := by
  have hd : dropRowsWithMissing data ≠ [] := by
    intro h
    exact hw (by simp [windowOf, h])
  rcases hc : dropRowsWithMissing data with _ | ⟨first, rest⟩
  · exact absurd hc hd
  refine ⟨matchMomentsOf m (windowOf data bounds), by simp [matchMoments, hc], ?_⟩
  have hlabsh : (windowOf data bounds).map Row.labsh ≠ [] := by
    intro h
    exact hw (List.map_eq_nil_iff.mp h)
  have hred : dictLookup (matchMomentsOf m (windowOf data bounds)) "alpha" =
      some (mean (((windowOf data bounds).map Row.labsh).map fun v => 1 - v)) := rfl
  rw [hred, mean_map_one_sub _ hlabsh]

/-- Witness for C1: the literal series labsh = [0.6, 0.6, 0.6] gives
alpha = 0.4. -/
theorem matchMoments_alpha_witness :
    ∃ d, matchMoments trivialModel dataLabsh06 none = .ok d ∧
      dictLookup d "alpha" = some 0.4 := by
  have hw : windowOf dataLabsh06 none ≠ [] := by
    have h3 : (windowOf dataLabsh06 none).length = 3 := rfl
    intro h
    rw [h] at h3
    simp at h3
  obtain ⟨d, hd, ha⟩ := matchMoments_alpha trivialModel dataLabsh06 none hw
  refine ⟨d, hd, ?_⟩
  rw [ha]
  have hv : (windowOf dataLabsh06 none).map Row.labsh = [0.6, 0.6, 0.6] := rfl
  rw [hv]
  norm_num [mean, List.sum_cons, List.sum_nil]

/-- C3 counterexample: the likelihood objective is not state-preserving.
For the concrete model whose stored sigma_eps is 1 and the concrete
seven-entry parameter array whose sigma_eps entry is 2, the model parameter
mapping after the call differs from the mapping before the call. -/
theorem likelihoodFunction_mutates_params :
    dictLookup ((likelihoodFunction arraySigmaEps2 modelSigmaEps1
        [] [] [] []).2).params "sigma_eps" ≠
      dictLookup modelSigmaEps1.params "sigma_eps" := by
  have h1 : dictLookup ((likelihoodFunction arraySigmaEps2 modelSigmaEps1
      [] [] [] []).2).params "sigma_eps" = some 2 := rfl
  have h2 : dictLookup modelSigmaEps1.params "sigma_eps" = some 1 := rfl
  rw [h1, h2]
  simp only [ne_eq, Option.some.injEq]
  norm_num

/-- C3 amended: the likelihood objective mutates exactly the stored parameter
dictionary of the model, overwriting the seven estimation keys with the
entries of the supplied array and leaving every other key and the production
methods unchanged; match_moments performs no such mutation (it only reads the
model).  The amended claim replaces purity of the likelihood objective by
this exact overwrite. -/
theorem likelihoodFunction_params_after (a : List ℝ) (m : Model)
    (output capital labor laborShare : List ℝ) (h7 : a.length = 7)
    (key : String) :
    ((likelihoodFunction a m output capital labor laborShare).2).solowResidual
        = m.solowResidual ∧
    ((likelihoodFunction a m output capital labor laborShare).2).outputElasticity
        = m.outputElasticity ∧
    (key ∈ paramKeys →
      dictLookup ((likelihoodFunction a m output capital labor laborShare).2).params key
        = dictLookup (arrayToParams a) key) ∧
    (key ∉ paramKeys →
      dictLookup ((likelihoodFunction a m output capital labor laborShare).2).params key
        = dictLookup m.params key) := by
  refine ⟨rfl, rfl, ?_, ?_⟩
  · intro hk
    rcases a with _ | ⟨x0, _ | ⟨x1, _ | ⟨x2, _ | ⟨x3, _ | ⟨x4, _ | ⟨x5, _ | ⟨x6, rest⟩⟩⟩⟩⟩⟩⟩ <;>
      simp only [List.length_cons, List.length_nil] at h7 <;> try omega
    have hr : rest = [] := by
      have : rest.length = 0 := by omega
      exact List.length_eq_zero.mp this
    subst hr
    simp only [paramKeys, List.mem_cons, List.not_mem_nil, or_false] at hk
    rcases hk with rfl | rfl | rfl | rfl | rfl | rfl | rfl <;> rfl
  · intro hk
    have hpost : ((likelihoodFunction a m output capital labor laborShare).2).params
        = arrayToParams a ++ m.params := rfl
    simp only [hpost, dictLookup, lookup_append, arrayToParams,
      lookup_zip_of_not_mem key paramKeys a hk, Option.none_or]

/-- Witness for the amended C3 theorem at concrete inputs: one key inside
and one key outside the seven estimation keys. -/
theorem likelihoodFunction_params_after_witness :
    (("sigma_eps" ∈ paramKeys →
      dictLookup ((likelihoodFunction arraySigmaEps2 modelSigmaEps1
          [] [] [] []).2).params "sigma_eps"
        = dictLookup (arrayToParams arraySigmaEps2) "sigma_eps")) ∧
    (("A0" ∉ paramKeys →
      dictLookup ((likelihoodFunction arraySigmaEps2 modelSigmaEps1
          [] [] [] []).2).params "A0"
        = dictLookup modelSigmaEps1.params "A0")) := by
  constructor
  · exact (likelihoodFunction_params_after arraySigmaEps2 modelSigmaEps1
      [] [] [] [] (by simp [arraySigmaEps2]) "sigma_eps").2.2.1
  · exact (likelihoodFunction_params_after arraySigmaEps2 modelSigmaEps1
      [] [] [] [] (by simp [arraySigmaEps2]) "A0").2.2.2

/-- C2 counterexample: the claim fails on the code.  For the concrete
dataset with one complete observation in year 2000 and the bounds (2001,
2002), the observation window filtered by the bounds is empty, yet
match_moments does not signal an error: it returns an estimate dictionary,
because its emptiness assertion runs before the bounds slice. -/
theorem matchMoments_ok_on_empty_window :
    windowOf dataOneYear (some (2001, 2002)) = [] ∧
      ∃ d, matchMoments trivialModel dataOneYear (some (2001, 2002)) = .ok d := by
  exact ⟨rfl, ⟨_, rfl⟩⟩

/-- Reduction of the moment-matching seed when the six-series dropna result
is nonempty: the initial-guess array is the seven estimates in the fixed
order, ending in the supplied sigma and sigma_eps guesses. -/
theorem cobbDouglasInitialGuess_ok (m : Model) (data : List Obs)
    (bounds : Option (Int × Int)) (sigma0 sigma_eps0 : ℝ) (f6 : Row)
    (r6 : List Row) (hc6 : dropRowsWithMissing data = f6 :: r6) :
    cobbDouglasInitialGuess m data bounds sigma0 sigma_eps0 =
      .ok [olsSlope ((((windowOf data bounds).map fun r =>
             m.solowResidual m.params r.rgdpna r.rkna r.emp).map Real.log)),
           olsSlope (((windowOf data bounds).map Row.emp).map Real.log),
           mean ((windowOf data bounds).map Row.csh_i),
           mean (((windowOf data bounds).map Row.labsh).map fun v => 1 - v),
           mean ((windowOf data bounds).map Row.delta_k),
           sigma0, sigma_eps0] := by
  simp only [cobbDouglasInitialGuess, matchMoments, hc6]
  rfl

/-- Reduction of maximize_likelihood once its own dropna check has passed
and the moment-matching seed has been computed: the optimizer is consulted
exactly once, on the seed, and the outcome is determined by its success
flag. -/
theorem maximizeLikelihood_reduces (m : Model) (data : List Obs)
    (bounds : Option (Int × Int)) (optimizer : List ℝ → OptResult)
    (sigma0 sigma_eps0 : ℝ) (f4 : Row4) (r4 : List Row4)
    (hc4 : dropRowsWithMissing4 data = f4 :: r4) (arr : List ℝ)
    (hig : cobbDouglasInitialGuess m data bounds sigma0 sigma_eps0 = .ok arr) :
    maximizeLikelihood m data bounds optimizer sigma0 sigma_eps0 =
      if (optimizer arr).success then
        .ok (MLOutcome.estimated (optimizer arr)
          (dictInsert (dictInsert (dictInsert (arrayToParams (optimizer arr).x)
            "A0" (((windowOf4 data bounds).map fun r =>
              m.solowResidual m.params r.rgdpna r.rkna r.emp).getD 0 0))
            "L0" (((windowOf4 data bounds).map Row4.emp).getD 0 0))
            "K0" (((windowOf4 data bounds).map Row4.rkna).getD 0 0)))
      else .ok (MLOutcome.failed (optimizer arr)) := by
  simp only [maximizeLikelihood, hc4, hig]

/-- C2 amended: the calibration routines signal the insufficient-data error
exactly when the data restricted to the rows carrying all their required
series is empty, before the bounds restriction is applied; match_moments
checks its six required series, and maximize_likelihood fails exactly when
its own four-series check or the six-series check of its moment-matching
seed fires.  An empty bounds-filtered window is not signaled. -/
theorem calibrators_error_iff (m : Model) (data : List Obs)
    (bounds : Option (Int × Int)) (optimizer : List ℝ → OptResult)
    (sigma0 sigma_eps0 : ℝ) :
    ((∃ e, matchMoments m data bounds = .error e) ↔
      dropRowsWithMissing data = []) ∧
    ((∃ e, maximizeLikelihood m data bounds optimizer sigma0 sigma_eps0 = .error e) ↔
      (dropRowsWithMissing4 data = [] ∨ dropRowsWithMissing data = [])) := by
  constructor
  · constructor
    · rintro ⟨e, he⟩
      rcases hc : dropRowsWithMissing data with _ | ⟨first, rest⟩
      · rfl
      · simp only [matchMoments, hc] at he
        exact Except.noConfusion he
    · intro hc
      exact ⟨"Insufficient data to estimate model parameters",
        by simp only [matchMoments, hc]⟩
  · constructor
    · rintro ⟨e, he⟩
      by_contra hcon
      push_neg at hcon
      obtain ⟨h4, h6⟩ := hcon
      rcases hc4 : dropRowsWithMissing4 data with _ | ⟨f4, r4⟩
      · exact h4 hc4
      rcases hc6 : dropRowsWithMissing data with _ | ⟨f6, r6⟩
      · exact h6 hc6
      rw [maximizeLikelihood_reduces m data bounds optimizer sigma0 sigma_eps0
        f4 r4 hc4 _ (cobbDouglasInitialGuess_ok m data bounds sigma0 sigma_eps0
          f6 r6 hc6)] at he
      split at he <;> exact Except.noConfusion he
    · intro hc
      rcases hc4 : dropRowsWithMissing4 data with _ | ⟨f4, r4⟩
      · exact ⟨"Insufficient data to estimate model parameters",
          by simp only [maximizeLikelihood, hc4]⟩
      rcases hc with hc | hc
      · rw [hc4] at hc
        cases hc
      · have hige : cobbDouglasInitialGuess m data bounds sigma0 sigma_eps0 =
            .error "Insufficient data to estimate model parameters" := by
          simp only [cobbDouglasInitialGuess, matchMoments, hc]
          rfl
        exact ⟨"Insufficient data to estimate model parameters",
          by simp only [maximizeLikelihood, hc4, hige]⟩

/-- C8: the maximum-likelihood optimization is seeded with the initial-guess
vector equal, in the fixed order [g, n, s, alpha, delta, sigma, sigma_eps],
to the moment-matching estimates for the first five entries and the supplied
initial guesses sigma0 and sigma_eps0 for the last two. -/
theorem initialGuess_is_moment_estimates (m : Model) (data : List Obs)
    (bounds : Option (Int × Int)) (sigma0 sigma_eps0 : ℝ) (f6 : Row)
    (r6 : List Row) (hc6 : dropRowsWithMissing data = f6 :: r6) :
    ∃ d, matchMoments m data bounds = .ok d ∧
      ∃ gv nv sv av dv,
        dictLookup d "g" = some gv ∧ dictLookup d "n" = some nv ∧
        dictLookup d "s" = some sv ∧ dictLookup d "alpha" = some av ∧
        dictLookup d "delta" = some dv ∧
        cobbDouglasInitialGuess m data bounds sigma0 sigma_eps0 =
          .ok [gv, nv, sv, av, dv, sigma0, sigma_eps0] := by
  refine ⟨matchMomentsOf m (windowOf data bounds),
    by simp only [matchMoments, hc6], ?_⟩
  exact ⟨_, _, _, _, _, rfl, rfl, rfl, rfl, rfl,
    cobbDouglasInitialGuess_ok m data bounds sigma0 sigma_eps0 f6 r6 hc6⟩

/-- Witness for C8 at the concrete three-year synthetic dataset and the
initial guesses sigma0 = 0.5, sigma_eps0 = 0.01. -/
theorem initialGuess_is_moment_estimates_witness :
    ∃ d, matchMoments trivialModel dataLabsh06 none = .ok d ∧
      ∃ gv nv sv av dv,
        dictLookup d "g" = some gv ∧ dictLookup d "n" = some nv ∧
        dictLookup d "s" = some sv ∧ dictLookup d "alpha" = some av ∧
        dictLookup d "delta" = some dv ∧
        cobbDouglasInitialGuess trivialModel dataLabsh06 none 0.5 0.01 =
          .ok [gv, nv, sv, av, dv, 0.5, 0.01] := by
  exact initialGuess_is_moment_estimates trivialModel dataLabsh06 none 0.5 0.01
    ⟨2000, 1, 1, 1, 0.6, 1, 1⟩
    [⟨2001, 1, 1, 1, 0.6, 1, 1⟩, ⟨2002, 1, 1, 1, 0.6, 1, 1⟩] rfl

/-- Lookups through the chain of A0, L0, K0 insertions performed by the
success branch of maximize_likelihood. -/
theorem lookup_insert_A0L0K0 (base : Dict) (t l kv : ℝ) :
    dictLookup (dictInsert (dictInsert (dictInsert base "A0" t) "L0" l)
      "K0" kv) "A0" = some t ∧
    dictLookup (dictInsert (dictInsert (dictInsert base "A0" t) "L0" l)
      "K0" kv) "L0" = some l ∧
    dictLookup (dictInsert (dictInsert (dictInsert base "A0" t) "L0" l)
      "K0" kv) "K0" = some kv ∧
    ∀ k ∈ paramKeys,
      dictLookup (dictInsert (dictInsert (dictInsert base "A0" t) "L0" l)
        "K0" kv) k = dictLookup base k := by
  refine ⟨rfl, rfl, rfl, ?_⟩
  intro k hk
  simp only [paramKeys, List.mem_cons, List.not_mem_nil, or_false] at hk
  rcases hk with rfl | rfl | rfl | rfl | rfl | rfl | rfl <;> rfl

/-- C9: when the optimizer reports non-convergence, maximize_likelihood
returns the bare diagnostic result, with no parameter estimates and no
retry (the optimizer is consulted once, on the moment-matching seed); when
the optimizer succeeds, it returns the diagnostic result together with the
estimated parameter mapping, whose A0, L0, K0 entries are taken from the
first observations of the technology, labor and capital series and whose
seven estimation keys come from the optimizer argmin array. -/
theorem maximizeLikelihood_outcome (m : Model) (data : List Obs)
    (bounds : Option (Int × Int)) (optimizer : List ℝ → OptResult)
    (sigma0 sigma_eps0 : ℝ) (r0 : Row4) (rest : List Row4)
    (hw4 : windowOf4 data bounds = r0 :: rest) (f6 : Row) (r6 : List Row)
    (hc6 : dropRowsWithMissing data = f6 :: r6) :
    ∃ arr, cobbDouglasInitialGuess m data bounds sigma0 sigma_eps0 = .ok arr ∧
      ((optimizer arr).success = false →
        maximizeLikelihood m data bounds optimizer sigma0 sigma_eps0 =
          .ok (MLOutcome.failed (optimizer arr))) ∧
      ((optimizer arr).success = true →
        ∃ d, maximizeLikelihood m data bounds optimizer sigma0 sigma_eps0 =
            .ok (MLOutcome.estimated (optimizer arr) d) ∧
          dictLookup d "A0" =
            some (m.solowResidual m.params r0.rgdpna r0.rkna r0.emp) ∧
          dictLookup d "L0" = some r0.emp ∧
          dictLookup d "K0" = some r0.rkna ∧
          ∀ k ∈ paramKeys,
            dictLookup d k = dictLookup (arrayToParams (optimizer arr).x) k) := by
  have hc4 : dropRowsWithMissing4 data ≠ [] := by
    intro h
    rw [windowOf4, h] at hw4
    exact List.noConfusion hw4
  rcases hq : dropRowsWithMissing4 data with _ | ⟨f4, r4⟩
  · exact absurd hq hc4
  have hig := cobbDouglasInitialGuess_ok m data bounds sigma0 sigma_eps0 f6 r6 hc6
  refine ⟨_, hig, ?_, ?_⟩
  · intro hfail
    rw [maximizeLikelihood_reduces m data bounds optimizer sigma0 sigma_eps0
      f4 r4 hq _ hig, hfail]
    rfl
  · intro hsucc
    rw [maximizeLikelihood_reduces m data bounds optimizer sigma0 sigma_eps0
      f4 r4 hq _ hig, hsucc]
    refine ⟨_, rfl, ?_, ?_, ?_, ?_⟩
    · rw [(lookup_insert_A0L0K0 _ _ _ _).1, hw4]
      simp
    · rw [(lookup_insert_A0L0K0 _ _ _ _).2.1, hw4]
      simp
    · rw [(lookup_insert_A0L0K0 _ _ _ _).2.2.1, hw4]
      simp
    · intro k hk
      exact (lookup_insert_A0L0K0 _ _ _ _).2.2.2 k hk

/-- Witness for C9 at the concrete three-year synthetic dataset with a
succeeding optimizer stub. -/
theorem maximizeLikelihood_outcome_witness :
    ∃ arr, cobbDouglasInitialGuess trivialModel dataLabsh06 none 0.5 0.01 = .ok arr ∧
      ((optSucceeds arr).success = false →
        maximizeLikelihood trivialModel dataLabsh06 none optSucceeds 0.5 0.01 =
          .ok (MLOutcome.failed (optSucceeds arr))) ∧
      ((optSucceeds arr).success = true →
        ∃ d, maximizeLikelihood trivialModel dataLabsh06 none optSucceeds 0.5 0.01 =
            .ok (MLOutcome.estimated (optSucceeds arr) d) ∧
          dictLookup d "A0" = some (trivialModel.solowResidual trivialModel.params 1 1 1) ∧
          dictLookup d "L0" = some 1 ∧
          dictLookup d "K0" = some 1 ∧
          ∀ k ∈ paramKeys,
            dictLookup d k = dictLookup (arrayToParams (optSucceeds arr).x) k) := by
  exact maximizeLikelihood_outcome trivialModel dataLabsh06 none optSucceeds 0.5 0.01
    ⟨2000, 1, 1, 1, 0.6⟩ [⟨2001, 1, 1, 1, 0.6⟩, ⟨2002, 1, 1, 1, 0.6⟩] rfl
    ⟨2000, 1, 1, 1, 0.6, 1, 1⟩
    [⟨2001, 1, 1, 1, 0.6, 1, 1⟩, ⟨2002, 1, 1, 1, 0.6, 1, 1⟩] rfl

/-! Ordinary least squares: the closed-form slope and intercept used by the
calibration minimize the sum of squared errors against the linear time
trend. -/

/-- Gauss sum of the time trend 0, 1, ..., N-1. -/
theorem sum_range_cast (N : ℕ) :
    ∑ i in Finset.range N, (i : ℝ) = N * (N - 1) / 2 := by
  induction N with
  | zero => simp
  | succ n ih =>
      rw [Finset.sum_range_succ, ih]
      push_cast
      ring

/-- Sum of squares of the time trend 0, 1, ..., N-1. -/
theorem sum_range_sq_cast (N : ℕ) :
    ∑ i in Finset.range N, (i : ℝ) ^ 2 = N * (N - 1) * (2 * N - 1) / 6 := by
  induction N with
  | zero => simp
  | succ n ih =>
      rw [Finset.sum_range_succ, ih]
      push_cast
      ring

/-- The least-squares denominator of the trend regression is positive as soon
as the window has at least two observations. -/
theorem ols_denom_pos (N : ℕ) (h2 : 2 ≤ N) :
    0 < (N : ℝ) * (∑ i in Finset.range N, (i : ℝ) ^ 2) -
      (∑ i in Finset.range N, (i : ℝ)) ^ 2 := by
  rw [sum_range_cast, sum_range_sq_cast]
  have hN : (2 : ℝ) ≤ N := by exact_mod_cast h2
  have key : (N : ℝ) * ((N : ℝ) * ((N : ℝ) - 1) * (2 * (N : ℝ) - 1) / 6) -
      ((N : ℝ) * ((N : ℝ) - 1) / 2) ^ 2
      = (N : ℝ) ^ 2 * ((N : ℝ) ^ 2 - 1) / 12 := by ring
  rw [key]
  have h1 : (1 : ℝ) < (N : ℝ) ^ 2 := by nlinarith
  have h0 : (0 : ℝ) < (N : ℝ) ^ 2 := by nlinarith
  apply div_pos (mul_pos h0 (by linarith)) (by norm_num)

/-- The closed-form slope and intercept satisfy the two normal equations of
the trend regression. -/
theorem normal_eqs_of_formulas (N : ℕ) (Y : ℕ → ℝ) (a b Sx Sxx Sy Sxy : ℝ)
    (hSx : Sx = ∑ i in Finset.range N, (i : ℝ))
    (hSxx : Sxx = ∑ i in Finset.range N, (i : ℝ) ^ 2)
    (hSy : Sy = ∑ i in Finset.range N, Y i)
    (hSxy : Sxy = ∑ i in Finset.range N, (i : ℝ) * Y i)
    (hN : (N : ℝ) ≠ 0) (hD : (N : ℝ) * Sxx - Sx ^ 2 ≠ 0)
    (hb : b = ((N : ℝ) * Sxy - Sx * Sy) / ((N : ℝ) * Sxx - Sx ^ 2))
    (ha : a = (Sy - b * Sx) / (N : ℝ)) :
    (∑ i in Finset.range N, (Y i - (a + b * (i : ℝ)))) = 0 ∧
    (∑ i in Finset.range N, ((i : ℝ) * (Y i - (a + b * (i : ℝ))))) = 0 := by
  constructor
  · have step : ∑ i in Finset.range N, (Y i - (a + b * (i : ℝ)))
        = Sy - ((N : ℝ) * a + b * Sx) := by
      calc ∑ i in Finset.range N, (Y i - (a + b * (i : ℝ)))
          = (∑ i in Finset.range N, Y i) -
              (∑ i in Finset.range N, (a + b * (i : ℝ))) :=
            Finset.sum_sub_distrib
        _ = Sy - ((N : ℝ) * a + b * Sx) := by
            rw [Finset.sum_add_distrib, Finset.sum_const, Finset.card_range,
              nsmul_eq_mul, ← Finset.mul_sum, hSy, hSx]
    rw [step, ha]
    field_simp
  · have step : ∑ i in Finset.range N, ((i : ℝ) * (Y i - (a + b * (i : ℝ))))
        = Sxy - (a * Sx + b * Sxx) := by
      calc ∑ i in Finset.range N, ((i : ℝ) * (Y i - (a + b * (i : ℝ))))
          = ∑ i in Finset.range N,
              ((i : ℝ) * Y i - (a * (i : ℝ) + b * (i : ℝ) ^ 2)) :=
            Finset.sum_congr rfl fun i _ => by ring
        _ = Sxy - (a * Sx + b * Sxx) := by
            rw [Finset.sum_sub_distrib, Finset.sum_add_distrib, ← Finset.mul_sum,
              ← Finset.mul_sum, hSxy, hSx, hSxx]
    rw [step, ha, hb]
    field_simp
    ring

/-- The fitted line of the normal equations minimizes the sum of squared
errors: completing the square, the cross terms vanish. -/
theorem quadratic_min (N : ℕ) (Y : ℕ → ℝ) (a b b0 b1 : ℝ)
    (hC : ∑ i in Finset.range N, (Y i - (a + b * (i : ℝ))) = 0)
    (hD : ∑ i in Finset.range N, ((i : ℝ) * (Y i - (a + b * (i : ℝ)))) = 0) :
    ∑ i in Finset.range N, (Y i - (a + b * (i : ℝ))) ^ 2 ≤
      ∑ i in Finset.range N, (Y i - (b0 + b1 * (i : ℝ))) ^ 2 := by
  have hpt : ∀ i : ℕ, (Y i - (b0 + b1 * (i : ℝ))) ^ 2
      = (Y i - (a + b * (i : ℝ))) ^ 2 + ((a - b0) + (b - b1) * (i : ℝ)) ^ 2
        + 2 * (a - b0) * (Y i - (a + b * (i : ℝ)))
        + 2 * (b - b1) * ((i : ℝ) * (Y i - (a + b * (i : ℝ)))) :=
    fun i => by ring
  have hexp : ∑ i in Finset.range N, (Y i - (b0 + b1 * (i : ℝ))) ^ 2
      = ∑ i in Finset.range N, (Y i - (a + b * (i : ℝ))) ^ 2
        + ∑ i in Finset.range N, ((a - b0) + (b - b1) * (i : ℝ)) ^ 2
        + 2 * (a - b0) * (∑ i in Finset.range N, (Y i - (a + b * (i : ℝ))))
        + 2 * (b - b1) *
            (∑ i in Finset.range N, ((i : ℝ) * (Y i - (a + b * (i : ℝ))))) := by
    rw [Finset.mul_sum, Finset.mul_sum, ← Finset.sum_add_distrib,
      ← Finset.sum_add_distrib, ← Finset.sum_add_distrib]
    exact Finset.sum_congr rfl fun i _ => hpt i
  rw [hexp, hC, hD]
  have hnn : 0 ≤ ∑ i in Finset.range N, ((a - b0) + (b - b1) * (i : ℝ)) ^ 2 :=
    Finset.sum_nonneg fun i _ => sq_nonneg _
  linarith

/-- The OLS slope and intercept of the calibration minimize the sum of
squared errors of the trend regression on every series with at least two
observations. -/
theorem ols_minimizes (y : List ℝ) (h2 : 2 ≤ y.length) (b0 b1 : ℝ) :
    sse y (olsIntercept y) (olsSlope y) ≤ sse y b0 b1 := by
  have hDpos := ols_denom_pos y.length h2
  have hN : ((y.length : ℕ) : ℝ) ≠ 0 := by
    have h0 : 0 < y.length := lt_of_lt_of_le (by norm_num) h2
    exact_mod_cast h0.ne'
  have hne := normal_eqs_of_formulas y.length (fun i => y.getD i 0)
    (olsIntercept y) (olsSlope y) _ _ _ _ rfl rfl rfl rfl hN hDpos.ne' rfl rfl
  exact quadratic_min y.length (fun i => y.getD i 0)
    (olsIntercept y) (olsSlope y) b0 b1 hne.1 hne.2

/-- C7: in match_moments, the estimate of n is the slope of the OLS
regression of log labor on a constant and the linear time trend with L0 the
exponential of its intercept, and likewise g and A0 for log adjusted TFP:
the returned pairs minimize the respective sums of squared errors over all
lines. -/
theorem matchMoments_trend_regressions (m : Model) (data : List Obs)
    (bounds : Option (Int × Int)) (f6 : Row) (r6 : List Row)
    (hc6 : dropRowsWithMissing data = f6 :: r6)
    (h2 : 2 ≤ (windowOf data bounds).length) :
    ∃ d, matchMoments m data bounds = .ok d ∧
      ∃ nv L0v gv A0v,
        dictLookup d "n" = some nv ∧ dictLookup d "L0" = some L0v ∧
        dictLookup d "g" = some gv ∧ dictLookup d "A0" = some A0v ∧
        (∀ b0 b1, sse (((windowOf data bounds).map Row.emp).map Real.log)
            (Real.log L0v) nv
          ≤ sse (((windowOf data bounds).map Row.emp).map Real.log) b0 b1) ∧
        (∀ b0 b1, sse (((windowOf data bounds).map fun r =>
              m.solowResidual m.params r.rgdpna r.rkna r.emp).map Real.log)
            (Real.log A0v) gv
          ≤ sse (((windowOf data bounds).map fun r =>
              m.solowResidual m.params r.rgdpna r.rkna r.emp).map Real.log)
            b0 b1) := by
  refine ⟨matchMomentsOf m (windowOf data bounds),
    by simp only [matchMoments, hc6], ?_⟩
  refine ⟨_, _, _, _, rfl, rfl, rfl, rfl, ?_, ?_⟩
  · intro b0 b1
    rw [Real.log_exp]
    exact ols_minimizes _ (by simpa using h2) b0 b1
  · intro b0 b1
    rw [Real.log_exp]
    exact ols_minimizes _ (by simpa using h2) b0 b1

/-- Witness for C7 at the concrete three-year synthetic dataset. -/
theorem matchMoments_trend_regressions_witness :
    ∃ d, matchMoments trivialModel dataLabsh06 none = .ok d ∧
      ∃ nv L0v gv A0v,
        dictLookup d "n" = some nv ∧ dictLookup d "L0" = some L0v ∧
        dictLookup d "g" = some gv ∧ dictLookup d "A0" = some A0v ∧
        (∀ b0 b1, sse (((windowOf dataLabsh06 none).map Row.emp).map Real.log)
            (Real.log L0v) nv
          ≤ sse (((windowOf dataLabsh06 none).map Row.emp).map Real.log) b0 b1) ∧
        (∀ b0 b1, sse (((windowOf dataLabsh06 none).map fun r =>
              trivialModel.solowResidual trivialModel.params
                r.rgdpna r.rkna r.emp).map Real.log)
            (Real.log A0v) gv
          ≤ sse (((windowOf dataLabsh06 none).map fun r =>
              trivialModel.solowResidual trivialModel.params
                r.rgdpna r.rkna r.emp).map Real.log) b0 b1) := by
  exact matchMoments_trend_regressions trivialModel dataLabsh06 none
    ⟨2000, 1, 1, 1, 0.6, 1, 1⟩
    [⟨2001, 1, 1, 1, 0.6, 1, 1⟩, ⟨2002, 1, 1, 1, 0.6, 1, 1⟩] rfl
    (by rw [show (windowOf dataLabsh06 none).length = 3 from rfl]; norm_num)

/-- C5: for every admissible parameter set, the drift
k_dot(k) = s f(k) - (g+n+delta) k with Cobb-Douglas intensive output is zero
exactly at the steady state and changes sign around it: negative above,
positive below, and zero at no other positive k. -/
theorem kDot_sign (g n s alpha delta : ℝ) (ha0 : 0 < alpha) (ha1 : alpha < 1)
    (hs : 0 < s) (hl : 0 < g + n + delta) (k : ℝ) (hk : 0 < k) :
    (kDot g n s alpha delta k = 0 ↔ k = steadyState g n s alpha delta) ∧
    (steadyState g n s alpha delta < k → kDot g n s alpha delta k < 0) ∧
    (k < steadyState g n s alpha delta → 0 < kDot g n s alpha delta k) := by
  have h1a : (0 : ℝ) < 1 - alpha := by linarith
  have hsl : 0 < s / (g + n + delta) := div_pos hs hl
  set K := (s / (g + n + delta)) ^ ((1 : ℝ) / (1 - alpha)) with hKdef
  have hstar : steadyState g n s alpha delta = K := by
    rw [steadyState, show n + g + delta = g + n + delta from by ring]
  have hKpos : 0 < K := Real.rpow_pos_of_pos hsl _
  have hKpow : K ^ (1 - alpha) = s / (g + n + delta) := by
    rw [hKdef, ← Real.rpow_mul hsl.le,
      show 1 / (1 - alpha) * (1 - alpha) = 1 from one_div_mul_cancel h1a.ne',
      Real.rpow_one]
  have hfact : kDot g n s alpha delta k
      = k ^ alpha * (s - (g + n + delta) * k ^ (1 - alpha)) := by
    have hsplit : k ^ alpha * k ^ (1 - alpha) = k := by
      rw [← Real.rpow_add hk]
      norm_num
    calc kDot g n s alpha delta k = s * k ^ alpha - (g + n + delta) * k := rfl
      _ = s * k ^ alpha - (g + n + delta) * (k ^ alpha * k ^ (1 - alpha)) := by
          rw [hsplit]
      _ = k ^ alpha * (s - (g + n + delta) * k ^ (1 - alpha)) := by ring
  have hka : 0 < k ^ alpha := Real.rpow_pos_of_pos hk _
  have hlt : k < K → k ^ (1 - alpha) < s / (g + n + delta) := by
    intro h
    have h2 := Real.rpow_lt_rpow hk.le h h1a
    rwa [hKpow] at h2
  have hgt : K < k → s / (g + n + delta) < k ^ (1 - alpha) := by
    intro h
    have h2 := Real.rpow_lt_rpow hKpos.le h h1a
    rwa [hKpow] at h2
  have hneg : K < k → kDot g n s alpha delta k < 0 := by
    intro h
    rw [hfact]
    have h2 := (div_lt_iff hl).mp (hgt h)
    have h3 : s - (g + n + delta) * k ^ (1 - alpha) < 0 := by nlinarith
    exact mul_neg_of_pos_of_neg hka h3
  have hposs : k < K → 0 < kDot g n s alpha delta k := by
    intro h
    rw [hfact]
    have h2 := (lt_div_iff hl).mp (hlt h)
    have h3 : 0 < s - (g + n + delta) * k ^ (1 - alpha) := by nlinarith
    exact mul_pos hka h3
  refine ⟨⟨?_, ?_⟩, fun h => hneg (by rwa [hstar] at h),
    fun h => hposs (by rwa [hstar] at h)⟩
  · intro h0
    rcases lt_trichotomy k K with hc | hc | hc
    · exact absurd h0 (ne_of_gt (hposs hc))
    · rw [hstar]
      exact hc
    · exact absurd h0 (ne_of_lt (hneg hc))
  · intro hke
    have hkeK : k = K := by rw [hke, hstar]
    have hpw : k ^ (1 - alpha) = s / (g + n + delta) := by rw [hkeK, hKpow]
    rw [hfact, hpw]
    have hz : s - (g + n + delta) * (s / (g + n + delta)) = 0 := by
      field_simp
    rw [hz, mul_zero]

/-- Witness for C5 at the admissible parameter set g = 0, n = 0, s = 1,
alpha = 1/2, delta = 1 and the capital level k = 4. -/
theorem kDot_sign_witness :
    (kDot 0 0 1 (1/2) 1 4 = 0 ↔ (4 : ℝ) = steadyState 0 0 1 (1/2) 1) ∧
    (steadyState 0 0 1 (1/2) 1 < 4 → kDot 0 0 1 (1/2) 1 4 < 0) ∧
    ((4 : ℝ) < steadyState 0 0 1 (1/2) 1 → 0 < kDot 0 0 1 (1/2) 1 4) := by
  exact kDot_sign 0 0 1 (1/2) 1 (by norm_num) (by norm_num) (by norm_num)
    (by norm_num) 4 (by norm_num)

/-- C4: for every valid Cobb-Douglas parameter set and every initial
condition k0 at least zero, the closed-form analytic solution starts at k0
and converges, as t tends to infinity, to the steady state
k* = (s/(n+g+delta))^(1/(1-alpha)). -/
theorem analyticSolution_initial_and_limit (g n s alpha delta k0 : ℝ)
    (ha0 : 0 < alpha) (ha1 : alpha < 1) (hs : 0 < s) (hdelta : 0 < delta)
    (hl : 0 < g + n + delta) (hk0 : 0 ≤ k0) :
    analyticSolution g n s alpha delta k0 0 = k0 ∧
      Filter.Tendsto (fun t => analyticSolution g n s alpha delta k0 t)
        Filter.atTop (nhds (steadyState g n s alpha delta)) := by
  have h1a : (0 : ℝ) < 1 - alpha := by linarith
  have hL : 0 < n + g + delta := by linarith
  have hsl : 0 < s / (n + g + delta) := div_pos hs hL
  constructor
  · rw [analyticSolution]
    rw [show -(n + g + delta) * (1 - alpha) * 0 = 0 from by ring, Real.exp_zero]
    rw [show s / (n + g + delta) * (1 - 1) + k0 ^ (1 - alpha) * 1
        = k0 ^ (1 - alpha) from by ring]
    rw [← Real.rpow_mul hk0,
      show (1 - alpha) * (1 / (1 - alpha)) = 1 from
        mul_one_div_cancel h1a.ne', Real.rpow_one]
  · have hc : 0 < (n + g + delta) * (1 - alpha) := mul_pos hL h1a
    have h1 : Filter.Tendsto (fun t : ℝ => (n + g + delta) * (1 - alpha) * t)
        Filter.atTop Filter.atTop :=
      Filter.Tendsto.const_mul_atTop hc Filter.tendsto_id
    have h2 : Filter.Tendsto (fun t : ℝ => -((n + g + delta) * (1 - alpha) * t))
        Filter.atTop Filter.atBot := Filter.tendsto_neg_atTop_atBot.comp h1
    have hE : Filter.Tendsto
        (fun t : ℝ => Real.exp (-((n + g + delta) * (1 - alpha) * t)))
        Filter.atTop (nhds 0) := Real.tendsto_exp_atBot.comp h2
    have hInner : Filter.Tendsto (fun t : ℝ =>
        s / (n + g + delta) *
            (1 - Real.exp (-((n + g + delta) * (1 - alpha) * t))) +
          k0 ^ (1 - alpha) * Real.exp (-((n + g + delta) * (1 - alpha) * t)))
        Filter.atTop (nhds (s / (n + g + delta))) := by
      have hone : Filter.Tendsto (fun _ : ℝ => (1 : ℝ)) Filter.atTop (nhds 1) :=
        tendsto_const_nhds
      have step := ((hone.sub hE).const_mul (s / (n + g + delta))).add
        (hE.const_mul (k0 ^ (1 - alpha)))
      have hval : s / (n + g + delta) * (1 - 0) + k0 ^ (1 - alpha) * 0
          = s / (n + g + delta) := by ring
      rwa [hval] at step
    have hOuter : ContinuousAt (fun x : ℝ => x ^ (1 / (1 - alpha)))
        (s / (n + g + delta)) :=
      Real.continuousAt_rpow_const _ _ (Or.inl hsl.ne')
    have hfinal := hOuter.tendsto.comp hInner
    have hfun : ∀ t : ℝ, analyticSolution g n s alpha delta k0 t
        = ((fun x : ℝ => x ^ (1 / (1 - alpha))) ∘ fun t : ℝ =>
            s / (n + g + delta) *
                (1 - Real.exp (-((n + g + delta) * (1 - alpha) * t))) +
              k0 ^ (1 - alpha) * Real.exp (-((n + g + delta) * (1 - alpha) * t))) t := by
      intro t
      rw [analyticSolution, Function.comp_apply,
        show -(n + g + delta) * (1 - alpha) * t
          = -((n + g + delta) * (1 - alpha) * t) from by ring]
    rw [steadyState]
    exact (Filter.tendsto_congr hfun).mpr hfinal

/-- Witness for C4 at the valid parameter set g = 0, n = 0, s = 1,
alpha = 1/2, delta = 1 with initial condition k0 = 0. -/
theorem analyticSolution_initial_and_limit_witness :
    analyticSolution 0 0 1 (1/2) 1 0 0 = 0 ∧
      Filter.Tendsto (fun t => analyticSolution 0 0 1 (1/2) 1 0 t)
        Filter.atTop (nhds (steadyState 0 0 1 (1/2) 1)) := by
  exact analyticSolution_initial_and_limit 0 0 1 (1/2) 1 0 (by norm_num)
    (by norm_num) (by norm_num) (by norm_num) (by norm_num) (by norm_num)

/-- Limit of the weighted power mean: as rho tends to 0 within the punctured
line, the generalized mean (alpha x^rho + (1-alpha) y^rho)^(1/rho) tends to
the weighted geometric mean x^alpha y^(1-alpha). -/
theorem weighted_power_mean_limit (alpha x y : ℝ) (ha0 : 0 < alpha)
    (ha1 : alpha < 1) (hx : 0 < x) (hy : 0 < y) :
    Filter.Tendsto (fun rho : ℝ =>
        (alpha * x ^ rho + (1 - alpha) * y ^ rho) ^ (1 / rho))
      (nhdsWithin 0 {(0 : ℝ)}ᶜ) (nhds (x ^ alpha * y ^ (1 - alpha))) := by
  have hSexp : ∀ rho : ℝ, alpha * x ^ rho + (1 - alpha) * y ^ rho
      = alpha * Real.exp (Real.log x * rho)
        + (1 - alpha) * Real.exp (Real.log y * rho) := by
    intro rho
    rw [Real.rpow_def_of_pos hx, Real.rpow_def_of_pos hy]
  have hSpos : ∀ rho : ℝ, 0 < alpha * x ^ rho + (1 - alpha) * y ^ rho := by
    intro rho
    have h1 := Real.rpow_pos_of_pos hx rho
    have h2 := Real.rpow_pos_of_pos hy rho
    nlinarith
  have hS0 : alpha * x ^ (0 : ℝ) + (1 - alpha) * y ^ (0 : ℝ) = 1 := by
    rw [Real.rpow_zero, Real.rpow_zero]
    ring
  have hdx : HasDerivAt (fun rho : ℝ => Real.exp (Real.log x * rho))
      (Real.log x) 0 := by
    have hlin : HasDerivAt (fun rho : ℝ => Real.log x * rho) (Real.log x) 0 := by
      simpa using (hasDerivAt_id (0 : ℝ)).const_mul (Real.log x)
    simpa using hlin.exp
  have hdy : HasDerivAt (fun rho : ℝ => Real.exp (Real.log y * rho))
      (Real.log y) 0 := by
    have hlin : HasDerivAt (fun rho : ℝ => Real.log y * rho) (Real.log y) 0 := by
      simpa using (hasDerivAt_id (0 : ℝ)).const_mul (Real.log y)
    simpa using hlin.exp
  have hdS : HasDerivAt
      (fun rho : ℝ => alpha * x ^ rho + (1 - alpha) * y ^ rho)
      (alpha * Real.log x + (1 - alpha) * Real.log y) 0 := by
    have h := (hdx.const_mul alpha).add (hdy.const_mul (1 - alpha))
    have hfe : (fun rho : ℝ => alpha * Real.exp (Real.log x * rho)
        + (1 - alpha) * Real.exp (Real.log y * rho))
        = fun rho : ℝ => alpha * x ^ rho + (1 - alpha) * y ^ rho := by
      funext rho
      rw [hSexp rho]
    rwa [hfe] at h
  have hf : HasDerivAt
      (fun rho : ℝ => Real.log (alpha * x ^ rho + (1 - alpha) * y ^ rho))
      (alpha * Real.log x + (1 - alpha) * Real.log y) 0 := by
    have h := hdS.log (by rw [hS0]; exact one_ne_zero)
    simpa [hS0] using h
  have hslope := hasDerivAt_iff_tendsto_slope.mp hf
  have hsl : ∀ rho : ℝ, slope
      (fun rho : ℝ => Real.log (alpha * x ^ rho + (1 - alpha) * y ^ rho)) 0 rho
      = Real.log (alpha * x ^ rho + (1 - alpha) * y ^ rho) / rho := by
    intro rho
    rw [slope_def_field]
    simp [hS0]
  have hslope2 : Filter.Tendsto (fun rho : ℝ =>
      Real.log (alpha * x ^ rho + (1 - alpha) * y ^ rho) / rho)
      (nhdsWithin 0 {(0 : ℝ)}ᶜ)
      (nhds (alpha * Real.log x + (1 - alpha) * Real.log y)) :=
    (Filter.tendsto_congr hsl).mp hslope
  have hexp := (Real.continuous_exp.continuousAt).tendsto.comp hslope2
  have hval : Real.exp (alpha * Real.log x + (1 - alpha) * Real.log y)
      = x ^ alpha * y ^ (1 - alpha) := by
    rw [Real.exp_add, Real.rpow_def_of_pos hx, Real.rpow_def_of_pos hy,
      mul_comm (Real.log x) alpha, mul_comm (Real.log y) (1 - alpha)]
  have hfun : ∀ rho : ℝ,
      Real.exp (Real.log (alpha * x ^ rho + (1 - alpha) * y ^ rho) / rho)
      = (alpha * x ^ rho + (1 - alpha) * y ^ rho) ^ (1 / rho) := by
    intro rho
    rw [Real.rpow_def_of_pos (hSpos rho), mul_one_div]
  rw [← hval]
  exact (Filter.tendsto_congr hfun).mp (by simpa [Function.comp] using hexp)

/-- C6: for fixed positive capital and effective labor and 0 < alpha < 1,
the CES production output converges to the Cobb-Douglas output as sigma
tends to 1, and the evaluator recovers this Cobb-Douglas limit at sigma = 1
via its limiting-case branch for the removable singularity. -/
theorem cesOutput_tendsto_cobbDouglas (alpha K A L : ℝ) (ha0 : 0 < alpha)
    (ha1 : alpha < 1) (hK : 0 < K) (hAL : 0 < A * L) :
    Filter.Tendsto (fun sigma => cesOutput alpha sigma K A L)
      (nhdsWithin 1 {(1 : ℝ)}ᶜ) (nhds (cobbDouglasOutput alpha K A L)) ∧
    cesOutputEvaluator alpha 1 K A L = cobbDouglasOutput alpha K A L := by
  constructor
  · have hcore := weighted_power_mean_limit alpha K (A * L) ha0 ha1 hK hAL
    have hmap : Filter.Tendsto (fun sigma : ℝ => (sigma - 1) / sigma)
        (nhdsWithin 1 {(1 : ℝ)}ᶜ) (nhdsWithin 0 {(0 : ℝ)}ᶜ) := by
      rw [tendsto_nhdsWithin_iff]
      constructor
      · have hcont : ContinuousAt (fun sigma : ℝ => (sigma - 1) / sigma) 1 :=
          (continuousAt_id.sub continuousAt_const).div continuousAt_id one_ne_zero
        have h := hcont.tendsto.mono_left
          (nhdsWithin_le_nhds : nhdsWithin (1 : ℝ) {(1 : ℝ)}ᶜ ≤ nhds 1)
        simpa using h
      · have h1 : ∀ᶠ sigma : ℝ in nhdsWithin 1 {(1 : ℝ)}ᶜ,
            sigma ∈ ({(1 : ℝ)}ᶜ : Set ℝ) := eventually_mem_nhdsWithin
        have h2 : ∀ᶠ sigma : ℝ in nhdsWithin 1 {(1 : ℝ)}ᶜ, sigma ≠ 0 :=
          Filter.Eventually.filter_mono nhdsWithin_le_nhds
            (eventually_ne_nhds one_ne_zero)
        filter_upwards [h1, h2] with sigma hs1 hs0
        have hne1 : sigma ≠ 1 := by simpa using hs1
        simp only [Set.mem_compl_iff, Set.mem_singleton_iff]
        exact div_ne_zero (sub_ne_zero.mpr hne1) hs0
    have hcomp := hcore.comp hmap
    have hfun : ∀ sigma : ℝ, ((fun rho : ℝ =>
        (alpha * K ^ rho + (1 - alpha) * (A * L) ^ rho) ^ (1 / rho)) ∘
          fun sigma : ℝ => (sigma - 1) / sigma) sigma
        = cesOutput alpha sigma K A L := fun sigma => rfl
    exact (Filter.tendsto_congr hfun).mp hcomp
  · rw [cesOutputEvaluator, if_pos rfl]

/-- Witness for C6 at alpha = 1/2, K = 1, A = 1, L = 1. -/
theorem cesOutput_tendsto_cobbDouglas_witness :
    Filter.Tendsto (fun sigma => cesOutput (1/2) sigma 1 1 1)
      (nhdsWithin 1 {(1 : ℝ)}ᶜ) (nhds (cobbDouglasOutput (1/2) 1 1 1)) ∧
    cesOutputEvaluator (1/2) 1 1 1 1 = cobbDouglasOutput (1/2) 1 1 1 := by
  exact cesOutput_tendsto_cobbDouglas (1/2) 1 1 1 (by norm_num) (by norm_num)
    (by norm_num) (by norm_num)

end SolowPy
